import Mathlib

/-!
Verification of the chunk-list core of the uncrustify formatting engine
(`src/chunk_list.h`).

The chunk list is embedded shallowly as a Lean `List chunk_t`; a chunk
pointer is an `Option Nat` index into that list (with `none` playing the
role of `nullptr`).  The inline functions of `chunk_list.h` are translated
directly.  Functions that `chunk_list.h` only declares (their bodies live
in `chunk_list.cpp`, which is not part of the sources under verification)
are modelled from the specification and carry a doc comment saying so.
-/

set_option maxHeartbeats 1000000

/-- Scope selector for traversal, from `chunk_list.h` (`enum class scope_e`):
`ALL` searches in all kinds of chunks, `PREPROC` searches only in
preprocessor chunks. -/
inductive scope_e : Type where
  | ALL : scope_e
  | PREPROC : scope_e
deriving DecidableEq, Repr

/-- Token categories.  The real `c_token_t` enumeration lives in
`token_enum.h`, which is not among the sources; per the spec (invariant 3)
every opening bracket-family kind has a unique adjacent closing kind
reachable by `+ 1`, so the enumeration is modelled as `Nat` with named
constants that keep each open/close pair numerically adjacent. -/
abbrev c_token_t := Nat

abbrev CT_NEWLINE : c_token_t := 1
abbrev CT_NL_CONT : c_token_t := 2
abbrev CT_COMMENT_CPP : c_token_t := 3
abbrev CT_COMMENT : c_token_t := 4
abbrev CT_COMMENT_MULTI : c_token_t := 5
abbrev CT_IGNORED : c_token_t := 6
abbrev CT_WORD : c_token_t := 7
abbrev CT_PAREN_OPEN : c_token_t := 20
abbrev CT_PAREN_CLOSE : c_token_t := 21
abbrev CT_SPAREN_OPEN : c_token_t := 22
abbrev CT_SPAREN_CLOSE : c_token_t := 23
abbrev CT_FPAREN_OPEN : c_token_t := 24
abbrev CT_FPAREN_CLOSE : c_token_t := 25
abbrev CT_TPAREN_OPEN : c_token_t := 26
abbrev CT_TPAREN_CLOSE : c_token_t := 27
abbrev CT_BRACE_OPEN : c_token_t := 28
abbrev CT_BRACE_CLOSE : c_token_t := 29
abbrev CT_VBRACE_OPEN : c_token_t := 30
abbrev CT_VBRACE_CLOSE : c_token_t := 31
abbrev CT_ANGLE_OPEN : c_token_t := 32
abbrev CT_ANGLE_CLOSE : c_token_t := 33
abbrev CT_SQUARE_OPEN : c_token_t := 34
abbrev CT_SQUARE_CLOSE : c_token_t := 35
abbrev CT_LPAREN_OPEN : c_token_t := 36
abbrev CT_TSQUARE : c_token_t := 37
abbrev CT_SEMICOLON : c_token_t := 40
abbrev CT_VSEMICOLON : c_token_t := 41
abbrev CT_ACCESS_COLON : c_token_t := 50
abbrev CT_ASM_COLON : c_token_t := 51
abbrev CT_BIT_COLON : c_token_t := 52
abbrev CT_CASE_COLON : c_token_t := 53
abbrev CT_CLASS_COLON : c_token_t := 54
abbrev CT_COLON : c_token_t := 55
abbrev CT_COND_COLON : c_token_t := 56
abbrev CT_CONSTR_COLON : c_token_t := 57
abbrev CT_CS_SQ_COLON : c_token_t := 58
abbrev CT_D_ARRAY_COLON : c_token_t := 59
abbrev CT_FOR_COLON : c_token_t := 60
abbrev CT_LABEL_COLON : c_token_t := 61
abbrev CT_OC_COLON : c_token_t := 62
abbrev CT_OC_DICT_COLON : c_token_t := 63
abbrev CT_TAG_COLON : c_token_t := 64
abbrev CT_WHERE_COLON : c_token_t := 65
abbrev CT_ACCESS : c_token_t := 70
abbrev CT_QUALIFIER : c_token_t := 71
abbrev CT_TYPE : c_token_t := 72
abbrev CT_PTR_TYPE : c_token_t := 73
abbrev CT_BYREF : c_token_t := 74
abbrev CT_DC_MEMBER : c_token_t := 75
abbrev CT_STRUCT : c_token_t := 76
abbrev CT_ENUM : c_token_t := 77
abbrev CT_UNION : c_token_t := 78
abbrev CT_OPERATOR_VAL : c_token_t := 80
abbrev CT_COMMA : c_token_t := 81
abbrev CT_FOR : c_token_t := 82
abbrev CT_IN : c_token_t := 83

/-- The any-level sentinel `ANY_LEVEL = -1` of `chunk_list.h`. -/
abbrev ANY_LEVEL : Int := -1

/-- Chunk flag bits.  The full `pcf_flags_t` bit-set lives in
`uncrustify_types.h` (not among the sources); per the spec (§3) the flags
are orthogonal context markers, of which the claims use
`PCF_IN_PREPROC` and `PCF_IN_TEMPLATE`. -/
structure pcf_flags_t : Type where
  in_preproc : Bool
  in_template : Bool
deriving DecidableEq, Repr

/-- One chunk: a token plus structural metadata, per the spec (§3).  The
real `chunk_t` lives in `uncrustify_types.h` (not among the sources); list
links are represented by position in the ambient `List chunk_t` instead of
`prev`/`next` pointers.  `str` holds the token text; `len()` is
`str.length` and `text()` is `str`. -/
structure chunk_t : Type where
  type : c_token_t
  level : Nat
  flags : pcf_flags_t
  str : List Char
deriving DecidableEq, Repr

/-- Active-language context.  `language_is_set` is provided by
`language_tools.h` (not among the sources); modelled as a record of the
languages the claims gate on. -/
structure lang_flags_t : Type where
  cpp : Bool
  cs : Bool
  oc : Bool
deriving DecidableEq, Repr

/-- Dereference a chunk handle: `none` is `nullptr`. -/
def chunkAt (cl : List chunk_t) : Option Nat → Option chunk_t
  | none => none
  | some i => cl[i]?

/-- From `chunk_list.h`: `chunk_is_token(pc, t)` is
`pc != nullptr && pc->type == t`. -/
def chunk_is_token (pc : Option chunk_t) (t : c_token_t) : Bool :=
  match pc with
  | none => false
  | some c => c.type == t

/-- From `chunk_list.h`: `chunk_is_not_token(pc, t)` is
`pc != nullptr && pc->type != t`. -/
def chunk_is_not_token (pc : Option chunk_t) (t : c_token_t) : Bool :=
  match pc with
  | none => false
  | some c => !(c.type == t)

/-- From `chunk_list.h`: `is_expected_type_and_level` — true when the
pointer is null, or the level is negative or matches, and the type
matches. -/
def is_expected_type_and_level (pc : Option chunk_t) (t : c_token_t)
    (level : Int) : Bool :=
  match pc with
  | none => true
  | some c => (decide (level < 0) || decide ((c.level : Int) = level)) && (c.type == t)

/-- Modelled from the spec: preprocessor-transparent forward skip used by
`next(cur, PREPROC)` when `cur` is outside a preprocessor region (§4.2);
the body lives in `chunk_list.cpp`, not among the sources.  Walks forward
from index `k` past every in-preprocessor chunk.  `fuel` only bounds the
recursion; `cl.length` fuel is always enough. -/
def skipPreprocFwd (cl : List chunk_t) : Nat → Nat → Option Nat
  | 0, _ => none
  | fuel + 1, k =>
    match cl[k]? with
    | none => none
    | some c => if c.flags.in_preproc then skipPreprocFwd cl fuel (k + 1) else some k

/-- Modelled from the spec: `chunk_get_next(cur, scope)` (§4.2); the body
lives in `chunk_list.cpp`, not among the sources.  `ALL` returns the
literal successor; `PREPROC` refuses to leave a preprocessor region
(absence at its boundary) and treats such a region as transparent when
starting outside it. -/
def chunk_get_next (cl : List chunk_t) (cur : Option Nat) (scope : scope_e) :
    Option Nat :=
  match cur with
  | none => none
  | some i =>
    match cl[i]?, cl[i + 1]? with
    | some c, some n =>
      match scope with
      | scope_e.ALL => some (i + 1)
      | scope_e.PREPROC =>
        if c.flags.in_preproc then
          (if n.flags.in_preproc then some (i + 1) else none)
        else
          skipPreprocFwd cl cl.length (i + 1)
    | _, _ => none

/-- Modelled from the spec: preprocessor-transparent backward skip used by
`prev(cur, PREPROC)` when `cur` is outside a preprocessor region (§4.2);
the body lives in `chunk_list.cpp`, not among the sources. -/
def skipPreprocRev (cl : List chunk_t) (k : Nat) : Option Nat :=
  match cl[k]? with
  | none => none
  | some c =>
    if c.flags.in_preproc then
      (match k with
       | 0 => none
       | p + 1 => skipPreprocRev cl p)
    else some k

/-- Modelled from the spec: `chunk_get_prev(cur, scope)` (§4.2), the
mirror image of `chunk_get_next`; the body lives in `chunk_list.cpp`, not
among the sources. -/
def chunk_get_prev (cl : List chunk_t) (cur : Option Nat) (scope : scope_e) :
    Option Nat :=
  match cur with
  | none => none
  | some i =>
    match cl[i]? with
    | none => none
    | some c =>
      match i with
      | 0 => none
      | p + 1 =>
        match cl[p]? with
        | none => none
        | some pr =>
          match scope with
          | scope_e.ALL => some p
          | scope_e.PREPROC =>
            if c.flags.in_preproc then
              (if pr.flags.in_preproc then some p else none)
            else
              skipPreprocRev cl p

/-- Repeated application of `chunk_get_next` (for stating reachability). -/
def chunk_iter_next (cl : List chunk_t) (scope : scope_e) :
    Nat → Option Nat → Option Nat
  | 0, cur => cur
  | n + 1, cur => chunk_iter_next cl scope n (chunk_get_next cl cur scope)

/-- Modelled from the spec: the forward type-at-level scan behind
`chunk_get_next_type` (§4.3) — advance via `next(·, scope)` and stop at
the first chunk satisfying `is_expected_type_and_level`; the body lives in
`chunk_list.cpp`, not among the sources.  `fuel` only bounds the
recursion; `cl.length` fuel is always enough. -/
def searchFwdTL (cl : List chunk_t) (scope : scope_e) (t : c_token_t)
    (level : Int) : Nat → Nat → Option Nat
  | 0, _ => none
  | fuel + 1, i =>
    match chunk_get_next cl (some i) scope with
    | none => none
    | some j =>
      if is_expected_type_and_level (chunkAt cl (some j)) t level then some j
      else searchFwdTL cl scope t level fuel j

/-- Modelled from the spec: `chunk_get_next_type(cur, type, level, scope)`
(§4.3); the body lives in `chunk_list.cpp`, not among the sources. -/
def chunk_get_next_type (cl : List chunk_t) (cur : Option Nat)
    (t : c_token_t) (level : Int) (scope : scope_e) : Option Nat :=
  match cur with
  | none => none
  | some i => searchFwdTL cl scope t level cl.length i

/-- Modelled from the spec: the backward type-at-level scan behind
`chunk_get_prev_type` (§4.3); the body lives in `chunk_list.cpp`, not
among the sources.  `fuel` only bounds the recursion; `i + 1` fuel is
always enough when starting from index `i`. -/
def searchRevTL (cl : List chunk_t) (scope : scope_e) (t : c_token_t)
    (level : Int) : Nat → Nat → Option Nat
  | 0, _ => none
  | fuel + 1, i =>
    match chunk_get_prev cl (some i) scope with
    | none => none
    | some j =>
      if is_expected_type_and_level (chunkAt cl (some j)) t level then some j
      else searchRevTL cl scope t level fuel j

/-- Modelled from the spec: `chunk_get_prev_type(cur, type, level, scope)`
(§4.3); the body lives in `chunk_list.cpp`, not among the sources. -/
def chunk_get_prev_type (cl : List chunk_t) (cur : Option Nat)
    (t : c_token_t) (level : Int) (scope : scope_e) : Option Nat :=
  match cur with
  | none => none
  | some i => searchRevTL cl scope t level (i + 1) i

/-- The eight opening bracket-family kinds tested by
`chunk_skip_to_match` (`chunk_list.h` spells this as a disjunction of
`chunk_is_token` tests). -/
def open_bracket_kind (t : c_token_t) : Bool :=
  t == CT_PAREN_OPEN || t == CT_SPAREN_OPEN || t == CT_FPAREN_OPEN ||
  t == CT_TPAREN_OPEN || t == CT_BRACE_OPEN || t == CT_VBRACE_OPEN ||
  t == CT_ANGLE_OPEN || t == CT_SQUARE_OPEN

/-- The eight closing bracket-family kinds tested by
`chunk_skip_to_match_rev` (`chunk_list.h` spells this as a disjunction of
`chunk_is_token` tests). -/
def close_bracket_kind (t : c_token_t) : Bool :=
  t == CT_PAREN_CLOSE || t == CT_SPAREN_CLOSE || t == CT_FPAREN_CLOSE ||
  t == CT_TPAREN_CLOSE || t == CT_BRACE_CLOSE || t == CT_VBRACE_CLOSE ||
  t == CT_ANGLE_CLOSE || t == CT_SQUARE_CLOSE

/-- From `chunk_list.h`: `chunk_skip_to_match(cur, scope)` — on an opening
bracket-family token, `chunk_get_next_type(cur, cur->type + 1, cur->level,
scope)`; otherwise `cur` itself. -/
def chunk_skip_to_match (cl : List chunk_t) (cur : Option Nat)
    (scope : scope_e) : Option Nat :=
  match chunkAt cl cur with
  | some c =>
    if open_bracket_kind c.type then
      chunk_get_next_type cl cur (c.type + 1) (c.level : Int) scope
    else cur
  | none => cur

/-- From `chunk_list.h`: `chunk_skip_to_match_rev(cur, scope)` — on a
closing bracket-family token, `chunk_get_prev_type(cur, cur->type - 1,
cur->level, scope)`; otherwise `cur` itself. -/
def chunk_skip_to_match_rev (cl : List chunk_t) (cur : Option Nat)
    (scope : scope_e) : Option Nat :=
  match chunkAt cl cur with
  | some c =>
    if close_bracket_kind c.type then
      chunk_get_prev_type cl cur (c.type - 1) (c.level : Int) scope
    else cur
  | none => cur

/-- From `chunk_list.h`: `chunk_is_comment` — single line, multiline or
C++ comment. -/
def chunk_is_comment (pc : Option chunk_t) : Bool :=
  chunk_is_token pc CT_COMMENT || chunk_is_token pc CT_COMMENT_MULTI ||
  chunk_is_token pc CT_COMMENT_CPP

/-- C-string comparison of the first `n` bytes, as `strncmp(a, b, n) == 0`
(list end plays the role of the NUL terminator). -/
def strncmpZero : List Char → List Char → Nat → Bool
  | _, _, 0 => true
  | [], [], _ + 1 => true
  | [], _ :: _, _ + 1 => false
  | _ :: _, [], _ + 1 => false
  | a :: as, b :: bs, n + 1 => a == b && strncmpZero as bs n

def private_chars : List Char := ['p', 'r', 'i', 'v', 'a', 't', 'e']

def protected_chars : List Char := ['p', 'r', 'o', 't', 'e', 'c', 't', 'e', 'd']

def public_chars : List Char := ['p', 'u', 'b', 'l', 'i', 'c']

/-- From `chunk_list.h`: `chunk_is_cpp_inheritance_access_specifier` —
C++ is active, the chunk is an access or qualifier token, and
`strncmp` of its text against "private"/"protected"/"public" (with each
word's own length) returns 0. -/
def chunk_is_cpp_inheritance_access_specifier (lang : lang_flags_t)
    (pc : Option chunk_t) : Bool :=
  lang.cpp &&
  (match pc with
   | none => false
   | some c =>
     (c.type == CT_ACCESS || c.type == CT_QUALIFIER) &&
     (strncmpZero c.str private_chars 7 || strncmpZero c.str protected_chars 9 ||
      strncmpZero c.str public_chars 6))

/-- From `chunk_list.h`: `chunk_is_colon` — the sixteen colon-role
tokens. -/
def chunk_is_colon (pc : Option chunk_t) : Bool :=
  chunk_is_token pc CT_ACCESS_COLON || chunk_is_token pc CT_ASM_COLON ||
  chunk_is_token pc CT_BIT_COLON || chunk_is_token pc CT_CASE_COLON ||
  chunk_is_token pc CT_CLASS_COLON || chunk_is_token pc CT_COLON ||
  chunk_is_token pc CT_COND_COLON || chunk_is_token pc CT_CONSTR_COLON ||
  chunk_is_token pc CT_CS_SQ_COLON || chunk_is_token pc CT_D_ARRAY_COLON ||
  chunk_is_token pc CT_FOR_COLON || chunk_is_token pc CT_LABEL_COLON ||
  chunk_is_token pc CT_OC_COLON || chunk_is_token pc CT_OC_DICT_COLON ||
  chunk_is_token pc CT_TAG_COLON || chunk_is_token pc CT_WHERE_COLON

/-- From `chunk_list.h`: `chunk_is_single_line_comment`. -/
def chunk_is_single_line_comment (pc : Option chunk_t) : Bool :=
  chunk_is_token pc CT_COMMENT || chunk_is_token pc CT_COMMENT_CPP

/-- From `chunk_list.h`: `chunk_is_newline` — newline or line
continuation. -/
def chunk_is_newline (pc : Option chunk_t) : Bool :=
  chunk_is_token pc CT_NEWLINE || chunk_is_token pc CT_NL_CONT

/-- From `chunk_list.h`: `chunk_is_semicolon` — real or virtual. -/
def chunk_is_semicolon (pc : Option chunk_t) : Bool :=
  chunk_is_token pc CT_SEMICOLON || chunk_is_token pc CT_VSEMICOLON

/-- From `chunk_list.h`: `chunk_is_blank` — valid chunk with
zero-length text. -/
def chunk_is_blank (pc : Option chunk_t) : Bool :=
  match pc with
  | none => false
  | some c => c.str.length == 0

/-- From `chunk_list.h`: `chunk_is_comment_or_newline`. -/
def chunk_is_comment_or_newline (pc : Option chunk_t) : Bool :=
  chunk_is_comment pc || chunk_is_newline pc

/-- From `chunk_list.h`: `chunk_is_comment_or_newline_or_ignored`. -/
def chunk_is_comment_or_newline_or_ignored (pc : Option chunk_t) : Bool :=
  chunk_is_comment pc || chunk_is_newline pc || chunk_is_token pc CT_IGNORED

/-- From `chunk_list.h`: `chunk_is_balanced_square`. -/
def chunk_is_balanced_square (pc : Option chunk_t) : Bool :=
  chunk_is_token pc CT_SQUARE_OPEN || chunk_is_token pc CT_TSQUARE ||
  chunk_is_token pc CT_SQUARE_CLOSE

/-- From `chunk_list.h`: `chunk_is_preproc` — valid chunk with
`PCF_IN_PREPROC` set. -/
def chunk_is_preproc (pc : Option chunk_t) : Bool :=
  match pc with
  | none => false
  | some c => c.flags.in_preproc

/-- From `chunk_list.h`: `chunk_is_comment_or_newline_in_preproc`. -/
def chunk_is_comment_or_newline_in_preproc (pc : Option chunk_t) : Bool :=
  match pc with
  | none => false
  | some c =>
    chunk_is_preproc (some c) &&
    (chunk_is_comment (some c) || chunk_is_newline (some c))

/-- From `chunk_list.h`: `chunk_is_comment_newline_or_preproc`. -/
def chunk_is_comment_newline_or_preproc (pc : Option chunk_t) : Bool :=
  chunk_is_comment pc || chunk_is_newline pc || chunk_is_preproc pc

/-- From `chunk_list.h`: `chunk_is_comment_newline_or_blank`. -/
def chunk_is_comment_newline_or_blank (pc : Option chunk_t) : Bool :=
  chunk_is_comment_or_newline pc || chunk_is_blank pc

/-- From `chunk_list.h`: `chunk_is_Doxygen_comment` — a comment whose
text is at least three characters long and whose third character is
`/`, `!` or `@`. -/
def chunk_is_Doxygen_comment (pc : Option chunk_t) : Bool :=
  match pc with
  | none => false
  | some c =>
    if !(chunk_is_comment (some c)) then false
    else if c.str.length < 3 then false
    else (c.str[2]? == some '/') || (c.str[2]? == some '!') ||
         (c.str[2]? == some '@')

/-- From `chunk_list.h`: `chunk_is_type`. -/
def chunk_is_type (pc : Option chunk_t) : Bool :=
  chunk_is_token pc CT_TYPE || chunk_is_token pc CT_PTR_TYPE ||
  chunk_is_token pc CT_BYREF || chunk_is_token pc CT_DC_MEMBER ||
  chunk_is_token pc CT_QUALIFIER || chunk_is_token pc CT_STRUCT ||
  chunk_is_token pc CT_ENUM || chunk_is_token pc CT_UNION

/-- From `chunk_list.h`: `chunk_is_str` — valid chunk, text length equals
`len`, and `memcmp` of the first `len` bytes of the texts returns 0. -/
def chunk_is_str (pc : Option chunk_t) (str : List Char) (len : Nat) : Bool :=
  match pc with
  | none => false
  | some c => (c.str.length == len) && (c.str.take len == str.take len)

/-- From `chunk_list.h`: `chunk_is_str_case` (case-insensitive variant;
`strncasecmp` is modelled via `Char.toLower`). -/
def chunk_is_str_case (pc : Option chunk_t) (str : List Char) (len : Nat) :
    Bool :=
  match pc with
  | none => false
  | some c =>
    (c.str.length == len) &&
    ((c.str.take len).map Char.toLower == (str.take len).map Char.toLower)

/-- From `chunk_list.h`: `chunk_is_word` — valid chunk, text of length at
least one, whose first byte is a keyword-start character.
`CharTable::IsKw1` comes from `char_table.h` (not among the sources) and
is passed as the parameter `isKw1`. -/
def chunk_is_word (isKw1 : Char → Bool) (pc : Option chunk_t) : Bool :=
  match pc with
  | none => false
  | some c =>
    decide (1 ≤ c.str.length) &&
    (match c.str[0]? with
     | some ch => isKw1 ch
     | none => false)

/-- From `chunk_list.h`: `chunk_is_star` — single-character `*` text and
not an overloaded-operator token. -/
def chunk_is_star (pc : Option chunk_t) : Bool :=
  match pc with
  | none => false
  | some c =>
    (c.str.length == 1) && (c.str[0]? == some '*') &&
    !(c.type == CT_OPERATOR_VAL)

/-- From `chunk_list.h`: `chunk_is_nullable` — C# active and
single-character `?` text. -/
def chunk_is_nullable (lang : lang_flags_t) (pc : Option chunk_t) : Bool :=
  lang.cs &&
  (match pc with
   | none => false
   | some c => (c.str.length == 1) && (c.str[0]? == some '?'))

/-- From `chunk_list.h`: `chunk_is_addr` — a `CT_BYREF` token, or a
single-character `&` that is not an overloaded operator; inside a
template argument list a `&` right after a comma or an opening angle is
not an address-of operator. -/
def chunk_is_addr (cl : List chunk_t) (cur : Option Nat) : Bool :=
  match chunkAt cl cur with
  | none => false
  | some c =>
    if (c.type == CT_BYREF) ||
       ((c.str.length == 1) && (c.str[0]? == some '&') &&
        !(c.type == CT_OPERATOR_VAL)) then
      (if c.flags.in_template &&
          (chunk_is_token (chunkAt cl (chunk_get_prev cl cur scope_e.ALL))
             CT_COMMA ||
           chunk_is_token (chunkAt cl (chunk_get_prev cl cur scope_e.ALL))
             CT_ANGLE_OPEN) then
         false
       else true)
    else false

/-- From `chunk_list.h`: `chunk_is_msref` — C++ active and a
single-character `^` that is not an overloaded operator. -/
def chunk_is_msref (lang : lang_flags_t) (pc : Option chunk_t) : Bool :=
  lang.cpp &&
  (match pc with
   | none => false
   | some c =>
     (c.str.length == 1) && (c.str[0]? == some '^') &&
     !(c.type == CT_OPERATOR_VAL))

/-- From `chunk_list.h`: `chunk_is_ptr_operator` — star, address-of,
managed reference, or nullable. -/
def chunk_is_ptr_operator (lang : lang_flags_t) (cl : List chunk_t)
    (cur : Option Nat) : Bool :=
  (chunk_is_star (chunkAt cl cur) || chunk_is_addr cl cur ||
   chunk_is_msref lang (chunkAt cl cur)) ||
  chunk_is_nullable lang (chunkAt cl cur)

/-- From `chunk_list.h`: `chunk_is_pointer_or_reference`. -/
def chunk_is_pointer_or_reference (lang : lang_flags_t) (cl : List chunk_t)
    (cur : Option Nat) : Bool :=
  chunk_is_ptr_operator lang cl cur ||
  chunk_is_token (chunkAt cl cur) CT_BYREF

/-- From `chunk_list.h`: `chunk_is_closing_brace` — real or virtual. -/
def chunk_is_closing_brace (pc : Option chunk_t) : Bool :=
  chunk_is_token pc CT_BRACE_CLOSE || chunk_is_token pc CT_VBRACE_CLOSE

/-- From `chunk_list.h`: `chunk_is_opening_brace` — real or virtual. -/
def chunk_is_opening_brace (pc : Option chunk_t) : Bool :=
  chunk_is_token pc CT_BRACE_OPEN || chunk_is_token pc CT_VBRACE_OPEN

/-- From `chunk_list.h`: `chunk_is_vbrace`. -/
def chunk_is_vbrace (pc : Option chunk_t) : Bool :=
  chunk_is_token pc CT_VBRACE_CLOSE || chunk_is_token pc CT_VBRACE_OPEN

/-- From `chunk_list.h`: `chunk_is_paren_open`. -/
def chunk_is_paren_open (pc : Option chunk_t) : Bool :=
  chunk_is_token pc CT_PAREN_OPEN || chunk_is_token pc CT_SPAREN_OPEN ||
  chunk_is_token pc CT_TPAREN_OPEN || chunk_is_token pc CT_FPAREN_OPEN ||
  chunk_is_token pc CT_LPAREN_OPEN

/-- From `chunk_list.h`: `chunk_is_paren_close`. -/
def chunk_is_paren_close (pc : Option chunk_t) : Bool :=
  chunk_is_token pc CT_PAREN_CLOSE || chunk_is_token pc CT_SPAREN_CLOSE ||
  chunk_is_token pc CT_TPAREN_CLOSE || chunk_is_token pc CT_FPAREN_CLOSE

/-- From `chunk_list.h`: `chunk_same_preproc` — true if either chunk is
null or both have the same `PCF_IN_PREPROC` state. -/
def chunk_same_preproc (pc1 pc2 : Option chunk_t) : Bool :=
  match pc1, pc2 with
  | none, _ => true
  | _, none => true
  | some a, some b => a.flags.in_preproc == b.flags.in_preproc

/-- From `chunk_list.h`: `chunk_safe_to_del_nl` — the previous chunk must
not be a C++ comment, and the neighbours must share preprocessor state. -/
def chunk_safe_to_del_nl (cl : List chunk_t) (nl : Option Nat) : Bool :=
  if chunk_is_token (chunkAt cl (chunk_get_prev cl nl scope_e.ALL))
       CT_COMMENT_CPP then
    false
  else
    chunk_same_preproc (chunkAt cl (chunk_get_prev cl nl scope_e.ALL))
      (chunkAt cl (chunk_get_next cl nl scope_e.ALL))

/-- Modelled from the spec: the forward comment-and-newline skip behind
`chunk_get_next_ncnnl` (§4.2) — "continuing while the predicate says
skip and stopping (returning that chunk) when it says keep, or returning
absence if the list end is reached first"; the body lives in
`chunk_list.cpp`, not among the sources.  `fuel` only bounds the
recursion; `cl.length + 1` fuel is always enough. -/
def ncnnlFwd (cl : List chunk_t) (scope : scope_e) : Nat → Nat → Option Nat
  | 0, _ => none
  | fuel + 1, i =>
    if chunk_is_comment_or_newline (chunkAt cl (some i)) then
      (match chunk_get_next cl (some i) scope with
       | none => none
       | some j => ncnnlFwd cl scope fuel j)
    else some i

/-- Modelled from the spec: `chunk_get_next_ncnnl(cur, scope)` (§4.2);
the body lives in `chunk_list.cpp`, not among the sources. -/
def chunk_get_next_ncnnl (cl : List chunk_t) (cur : Option Nat)
    (scope : scope_e) : Option Nat :=
  match cur with
  | none => none
  | some i => ncnnlFwd cl scope (cl.length + 1) i

/-- Modelled from the spec: the backward comment-and-newline skip behind
`chunk_get_prev_ncnnl` (§4.2); the body lives in `chunk_list.cpp`, not
among the sources. -/
def ncnnlRev (cl : List chunk_t) (scope : scope_e) : Nat → Nat → Option Nat
  | 0, _ => none
  | fuel + 1, i =>
    if chunk_is_comment_or_newline (chunkAt cl (some i)) then
      (match chunk_get_prev cl (some i) scope with
       | none => none
       | some j => ncnnlRev cl scope fuel j)
    else some i

/-- Modelled from the spec: `chunk_get_prev_ncnnl(cur, scope)` (§4.2);
the body lives in `chunk_list.cpp`, not among the sources. -/
def chunk_get_prev_ncnnl (cl : List chunk_t) (cur : Option Nat)
    (scope : scope_e) : Option Nat :=
  match cur with
  | none => none
  | some i => ncnnlRev cl scope (i + 1) i

/-- The scan of `chunk_is_forin` in `chunk_list.h`: advance via
`chunk_get_next_ncnnl` while the chunk exists and is neither
`CT_SPAREN_CLOSE` nor `CT_IN`.  `fuel` only bounds the loop (the source
writes a `while` loop). -/
def forinLoop (cl : List chunk_t) : Nat → Option Nat → Option Nat
  | 0, next => next
  | fuel + 1, next =>
    match chunkAt cl next with
    | none => next
    | some c =>
      if !(c.type == CT_SPAREN_CLOSE) && !(c.type == CT_IN) then
        forinLoop cl fuel (chunk_get_next_ncnnl cl next scope_e.ALL)
      else next

/-- From `chunk_list.h`: `chunk_is_forin` — Objective-C active, the chunk
is a `CT_SPAREN_OPEN` preceded (modulo comments and newlines) by
`CT_FOR`, and the scan ahead meets `CT_IN` before `CT_SPAREN_CLOSE`. -/
def chunk_is_forin (lang : lang_flags_t) (cl : List chunk_t)
    (cur : Option Nat) : Bool :=
  if lang.oc && chunk_is_token (chunkAt cl cur) CT_SPAREN_OPEN then
    (if chunk_is_token (chunkAt cl (chunk_get_prev_ncnnl cl cur scope_e.ALL))
          CT_FOR then
       chunk_is_token
         (chunkAt cl (forinLoop cl (cl.length + 1) cur)) CT_IN
     else false)
  else false

/-- Modelled from the spec: `duplicate(src)` (§4.1) — a new chunk with
identical kind, flags, text and level, failing (absence) on an absent
source; the body of `chunk_dup` lives in `chunk_list.cpp`, not among the
sources. -/
def chunk_dup (pc_in : Option chunk_t) : Option chunk_t :=
  pc_in

/-- Modelled from the spec: `chunk_get_head()` (§4.1); the body lives in
`chunk_list.cpp`, not among the sources. -/
def chunk_get_head (cl : List chunk_t) : Option Nat :=
  if cl.isEmpty then none else some 0

/-- Modelled from the spec: `chunk_get_tail()` (§4.1); the body lives in
`chunk_list.cpp`, not among the sources. -/
def chunk_get_tail (cl : List chunk_t) : Option Nat :=
  if cl.isEmpty then none else some (cl.length - 1)

/-- Modelled from the spec: `chunk_add_after(pc_in, ref)` (§4.1) — insert
a duplicate of `pc_in` after `ref`, or at the tail when `ref` is absent;
returns the updated list and the inserted chunk; the body lives in
`chunk_list.cpp`, not among the sources. -/
def chunk_add_after (cl : List chunk_t) (pc_in : Option chunk_t)
    (ref : Option Nat) : List chunk_t × Option Nat :=
  match chunk_dup pc_in with
  | none => (cl, none)
  | some c =>
    match ref with
    | none => (cl ++ [c], some cl.length)
    | some i => (cl.take (i + 1) ++ c :: cl.drop (i + 1), some (i + 1))

/-- Modelled from the spec: `chunk_add_before(pc_in, ref)` (§4.1) — insert
a duplicate of `pc_in` before `ref`, or at the head when `ref` is absent;
returns the updated list and the inserted chunk; the body lives in
`chunk_list.cpp`, not among the sources. -/
def chunk_add_before (cl : List chunk_t) (pc_in : Option chunk_t)
    (ref : Option Nat) : List chunk_t × Option Nat :=
  match chunk_dup pc_in with
  | none => (cl, none)
  | some c =>
    match ref with
    | none => (c :: cl, some 0)
    | some i => (cl.take i ++ c :: cl.drop i, some i)

/-! ### Helper lemmas about the navigation primitives -/

theorem skipPreprocFwd_some (cl : List chunk_t) :
    ∀ fuel k j, skipPreprocFwd cl fuel k = some j →
      k ≤ j ∧ ∃ d, cl[j]? = some d ∧ d.flags.in_preproc = false := by
  intro fuel
  induction fuel with
  | zero => intro k j h; simp [skipPreprocFwd] at h
  | succ fuel ih =>
    intro k j h
    cases hk : cl[k]? with
    | none => simp [skipPreprocFwd, hk] at h
    | some c =>
      simp only [skipPreprocFwd, hk] at h
      cases hc : c.flags.in_preproc with
      | true =>
        rw [hc] at h
        simp only [if_pos rfl] at h
        obtain ⟨hle, d, hd, hdp⟩ := ih (k + 1) j h
        exact ⟨by omega, d, hd, hdp⟩
      | false =>
        rw [hc] at h
        simp only [Bool.false_eq_true, if_false] at h
        cases h
        exact ⟨Nat.le_refl k, c, hk, hc⟩

theorem chunk_get_next_some (cl : List chunk_t) (i j : Nat) (s : scope_e)
    (h : chunk_get_next cl (some i) s = some j) :
    i < j ∧ ∃ d, cl[j]? = some d := by
  cases hi : cl[i]? with
  | none =>
    exfalso
    cases hn : cl[i + 1]? <;> simp [chunk_get_next, hi, hn] at h
  | some c =>
    cases hn : cl[i + 1]? with
    | none => exfalso; simp [chunk_get_next, hi, hn] at h
    | some n =>
      cases s with
      | ALL =>
        simp only [chunk_get_next, hi, hn] at h
        cases h
        exact ⟨Nat.lt_succ_self i, n, hn⟩
      | PREPROC =>
        simp only [chunk_get_next, hi, hn] at h
        cases hc : c.flags.in_preproc with
        | true =>
          rw [hc] at h
          cases hnp : n.flags.in_preproc with
          | true =>
            rw [hnp] at h; simp at h; cases h
            exact ⟨Nat.lt_succ_self i, n, hn⟩
          | false => rw [hnp] at h; simp at h
        | false =>
          rw [hc] at h
          simp only [Bool.false_eq_true, if_false] at h
          obtain ⟨hle, d, hd, _⟩ := skipPreprocFwd_some cl cl.length (i + 1) j h
          exact ⟨by omega, d, hd⟩

theorem chunk_get_next_all_inv (cl : List chunk_t) (i j : Nat)
    (h : chunk_get_next cl (some i) scope_e.ALL = some j) :
    j = i + 1 ∧ ∃ d, cl[i + 1]? = some d := by
  cases hi : cl[i]? with
  | none => exfalso; cases hn : cl[i + 1]? <;> simp [chunk_get_next, hi, hn] at h
  | some c =>
    cases hn : cl[i + 1]? with
    | none => exfalso; simp [chunk_get_next, hi, hn] at h
    | some n =>
      simp only [chunk_get_next, hi, hn] at h
      cases h
      exact ⟨rfl, n, rfl⟩


theorem chunk_get_next_all_none (cl : List chunk_t) (i : Nat)
    (h : chunk_get_next cl (some i) scope_e.ALL = none) :
    ∀ k, i < k → cl[k]? = none := by
  intro k hik
  cases hi : cl[i]? with
  | none =>
    have hlen : cl.length ≤ i := by
      by_contra hlt
      rw [List.getElem?_eq_getElem (by omega)] at hi
      cases hi
    exact List.getElem?_eq_none (by omega)
  | some c =>
    cases hn : cl[i + 1]? with
    | none =>
      have hlen : cl.length ≤ i + 1 := by
        by_contra hlt
        rw [List.getElem?_eq_getElem (by omega)] at hn
        cases hn
      exact List.getElem?_eq_none (by omega)
    | some n => exfalso; simp [chunk_get_next, hi, hn] at h

theorem chunk_get_next_all_of_getElem (cl : List chunk_t) (i : Nat)
    (c n : chunk_t) (hi : cl[i]? = some c) (hn : cl[i + 1]? = some n) :
    chunk_get_next cl (some i) scope_e.ALL = some (i + 1) := by
  simp [chunk_get_next, hi, hn]

theorem chunk_get_next_all_none_of_getElem (cl : List chunk_t) (i : Nat)
    (hn : cl[i + 1]? = none) :
    chunk_get_next cl (some i) scope_e.ALL = none := by
  cases hi : cl[i]? <;> simp [chunk_get_next, hi, hn]

theorem skipPreprocRev_some (cl : List chunk_t) :
    ∀ k j, skipPreprocRev cl k = some j →
      j ≤ k ∧ ∃ d, cl[j]? = some d ∧ d.flags.in_preproc = false := by
  intro k
  induction k with
  | zero =>
    intro j h
    rw [skipPreprocRev] at h
    cases hk : cl[0]? with
    | none => rw [hk] at h; cases h
    | some c =>
      rw [hk] at h
      simp only at h
      cases hc : c.flags.in_preproc with
      | true => rw [hc] at h; simp at h
      | false =>
        rw [hc] at h
        simp only [Bool.false_eq_true, if_false] at h
        cases h
        exact ⟨Nat.le_refl 0, c, hk, hc⟩
  | succ p ih =>
    intro j h
    rw [skipPreprocRev] at h
    cases hk : cl[p + 1]? with
    | none => rw [hk] at h; cases h
    | some c =>
      rw [hk] at h
      simp only at h
      cases hc : c.flags.in_preproc with
      | true =>
        rw [hc] at h
        simp only [if_pos rfl] at h
        obtain ⟨hle, d, hd, hdp⟩ := ih j h
        exact ⟨by omega, d, hd, hdp⟩
      | false =>
        rw [hc] at h
        simp only [Bool.false_eq_true, if_false] at h
        cases h
        exact ⟨Nat.le_refl _, c, hk, hc⟩

theorem chunk_get_prev_some (cl : List chunk_t) (i j : Nat) (s : scope_e)
    (h : chunk_get_prev cl (some i) s = some j) :
    j < i ∧ ∃ d, cl[j]? = some d := by
  cases hi : cl[i]? with
  | none => exfalso; simp [chunk_get_prev, hi] at h
  | some c =>
    cases i with
    | zero => exfalso; simp [chunk_get_prev, hi] at h
    | succ p =>
      cases hp : cl[p]? with
      | none => exfalso; simp [chunk_get_prev, hi, hp] at h
      | some pr =>
        cases s with
        | ALL =>
          simp only [chunk_get_prev, hi, hp] at h
          cases h
          exact ⟨by omega, pr, hp⟩
        | PREPROC =>
          simp only [chunk_get_prev, hi, hp] at h
          cases hc : c.flags.in_preproc with
          | true =>
            rw [hc] at h
            cases hpp : pr.flags.in_preproc with
            | true =>
              rw [hpp] at h; simp at h; cases h
              exact ⟨by omega, pr, hp⟩
            | false => rw [hpp] at h; simp at h
          | false =>
            rw [hc] at h
            simp only [Bool.false_eq_true, if_false] at h
            obtain ⟨hle, d, hd, _⟩ := skipPreprocRev_some cl p j h
            exact ⟨by omega, d, hd⟩

theorem chunk_get_prev_all_zero (cl : List chunk_t) :
    chunk_get_prev cl (some 0) scope_e.ALL = none := by
  cases h : cl[0]? <;> simp [chunk_get_prev, h]

theorem chunk_get_prev_all_succ (cl : List chunk_t) (p : Nat) (c pr : chunk_t)
    (hi : cl[p + 1]? = some c) (hp : cl[p]? = some pr) :
    chunk_get_prev cl (some (p + 1)) scope_e.ALL = some p := by
  simp [chunk_get_prev, hi, hp]

theorem expTL_nat_iff (d : chunk_t) (t : c_token_t) (n : Nat) :
    is_expected_type_and_level (some d) t (n : Int) = true ↔
      d.type = t ∧ d.level = n := by
  simp only [is_expected_type_and_level, Bool.and_eq_true, Bool.or_eq_true,
    decide_eq_true_eq, beq_iff_eq]
  constructor
  · rintro ⟨h1, h2⟩
    refine ⟨h2, ?_⟩
    omega
  · rintro ⟨h1, h2⟩
    exact ⟨Or.inr (by omega), h1⟩

theorem expTL_nat_false_iff (d : chunk_t) (t : c_token_t) (n : Nat) :
    is_expected_type_and_level (some d) t (n : Int) = false ↔
      ¬(d.type = t ∧ d.level = n) := by
  constructor
  · intro h hc
    have := (expTL_nat_iff d t n).2 hc
    rw [h] at this
    cases this
  · intro h
    cases he : is_expected_type_and_level (some d) t (n : Int) with
    | false => rfl
    | true => exact absurd ((expTL_nat_iff d t n).1 he) h

theorem searchFwdTL_all_spec (cl : List chunk_t) (t : c_token_t) (L : Int) :
    ∀ fuel i, cl.length ≤ fuel + i →
      ((∀ j, searchFwdTL cl scope_e.ALL t L fuel i = some j →
          i < j ∧ ∃ d, cl[j]? = some d ∧
            is_expected_type_and_level (some d) t L = true ∧
            ∀ k dk, i < k → k < j → cl[k]? = some dk →
              is_expected_type_and_level (some dk) t L = false) ∧
       (searchFwdTL cl scope_e.ALL t L fuel i = none →
          ∀ k dk, i < k → cl[k]? = some dk →
            is_expected_type_and_level (some dk) t L = false)) := by
  intro fuel
  induction fuel with
  | zero =>
    intro i hle
    constructor
    · intro j h
      simp [searchFwdTL] at h
    · intro _ k dk hik hk
      exfalso
      rw [List.getElem?_eq_none (by omega)] at hk
      cases hk
  | succ fuel ih =>
    intro i hle
    cases hnext : chunk_get_next cl (some i) scope_e.ALL with
    | none =>
      have hnone : ∀ k, i < k → cl[k]? = (none : Option chunk_t) :=
        chunk_get_next_all_none cl i hnext
      constructor
      · intro j h
        simp [searchFwdTL, hnext] at h
      · intro _ k dk hik hk
        exfalso
        rw [hnone k hik] at hk
        cases hk
    | some m =>
      obtain ⟨hm, d, hd⟩ := chunk_get_next_all_inv cl i m hnext
      subst hm
      have hat : chunkAt cl (some (i + 1)) = some d := hd
      by_cases hexp : is_expected_type_and_level (chunkAt cl (some (i + 1))) t L = true
      · have hres : searchFwdTL cl scope_e.ALL t L (fuel + 1) i = some (i + 1) := by
          simp [searchFwdTL, hnext, hexp]
        have hexpd : is_expected_type_and_level (some d) t L = true := by
          rw [hat] at hexp
          exact hexp
        constructor
        · intro j h
          rw [hres] at h
          cases h
          refine ⟨Nat.lt_succ_self i, d, hd, hexpd, ?_⟩
          intro k dk h1 h2 _
          omega
        · intro h
          rw [hres] at h
          cases h
      · have hexpf : is_expected_type_and_level (chunkAt cl (some (i + 1))) t L = false := by
          cases hb : is_expected_type_and_level (chunkAt cl (some (i + 1))) t L with
          | false => rfl
          | true => exact absurd hb hexp
        have hexpdf : is_expected_type_and_level (some d) t L = false := by
          rw [hat] at hexpf
          exact hexpf
        have hres : searchFwdTL cl scope_e.ALL t L (fuel + 1) i =
            searchFwdTL cl scope_e.ALL t L fuel (i + 1) := by
          simp [searchFwdTL, hnext, hexpf]
        obtain ⟨ihsome, ihnone⟩ := ih (i + 1) (by omega)
        constructor
        · intro j h
          rw [hres] at h
          obtain ⟨hij, e, he, hexpe, hfirst⟩ := ihsome j h
          refine ⟨by omega, e, he, hexpe, ?_⟩
          intro k dk hik hkj hk
          by_cases hk1 : k = i + 1
          · subst hk1
            rw [hd] at hk
            cases hk
            exact hexpdf
          · exact hfirst k dk (by omega) hkj hk
        · intro h
          rw [hres] at h
          intro k dk hik hk
          by_cases hk1 : k = i + 1
          · subst hk1
            rw [hd] at hk
            cases hk
            exact hexpdf
          · exact ihnone h k dk (by omega) hk

theorem searchRevTL_all_spec (cl : List chunk_t) (t : c_token_t) (L : Int) :
    ∀ fuel i, i < fuel → i < cl.length →
      ((∀ j, searchRevTL cl scope_e.ALL t L fuel i = some j →
          j < i ∧ ∃ d, cl[j]? = some d ∧
            is_expected_type_and_level (some d) t L = true ∧
            ∀ k dk, j < k → k < i → cl[k]? = some dk →
              is_expected_type_and_level (some dk) t L = false) ∧
       (searchRevTL cl scope_e.ALL t L fuel i = none →
          ∀ k dk, k < i → cl[k]? = some dk →
            is_expected_type_and_level (some dk) t L = false)) := by
  intro fuel
  induction fuel with
  | zero =>
    intro i hfuel
    exact absurd hfuel (Nat.not_lt_zero i)
  | succ fuel ih =>
    intro i hfuel hlen
    have hi : cl[i]? = some cl[i] := List.getElem?_eq_getElem hlen
    cases i with
    | zero =>
      have hprev : chunk_get_prev cl (some 0) scope_e.ALL = none :=
        chunk_get_prev_all_zero cl
      constructor
      · intro j h
        simp [searchRevTL, hprev] at h
      · intro _ k dk hk
        exact absurd hk (Nat.not_lt_zero k)
    | succ p =>
      have hplen : p < cl.length := by omega
      have hp : cl[p]? = some cl[p] := List.getElem?_eq_getElem hplen
      have hprev : chunk_get_prev cl (some (p + 1)) scope_e.ALL = some p :=
        chunk_get_prev_all_succ cl p cl[p + 1] cl[p] hi hp
      have hat : chunkAt cl (some p) = some cl[p] := hp
      by_cases hexp : is_expected_type_and_level (chunkAt cl (some p)) t L = true
      · have hres : searchRevTL cl scope_e.ALL t L (fuel + 1) (p + 1) = some p := by
          simp [searchRevTL, hprev, hexp]
        have hexpd : is_expected_type_and_level (some cl[p]) t L = true := by
          rw [hat] at hexp
          exact hexp
        constructor
        · intro j h
          rw [hres] at h
          cases h
          refine ⟨Nat.lt_succ_self p, cl[p], hp, hexpd, ?_⟩
          intro k dk h1 h2 _
          omega
        · intro h
          rw [hres] at h
          cases h
      · have hexpf : is_expected_type_and_level (chunkAt cl (some p)) t L = false := by
          cases hb : is_expected_type_and_level (chunkAt cl (some p)) t L with
          | false => rfl
          | true => exact absurd hb hexp
        have hexpdf : is_expected_type_and_level (some cl[p]) t L = false := by
          rw [hat] at hexpf
          exact hexpf
        have hres : searchRevTL cl scope_e.ALL t L (fuel + 1) (p + 1) =
            searchRevTL cl scope_e.ALL t L fuel p := by
          simp [searchRevTL, hprev, hexpf]
        obtain ⟨ihsome, ihnone⟩ := ih p (by omega) hplen
        constructor
        · intro j h
          rw [hres] at h
          obtain ⟨hji, e, he, hexpe, hfirst⟩ := ihsome j h
          refine ⟨by omega, e, he, hexpe, ?_⟩
          intro k dk hjk hki hk
          by_cases hk1 : k = p
          · subst hk1
            rw [hp] at hk
            cases hk
            exact hexpdf
          · exact hfirst k dk hjk (by omega) hk
        · intro h
          rw [hres] at h
          intro k dk hki hk
          by_cases hk1 : k = p
          · subst hk1
            rw [hp] at hk
            cases hk
            exact hexpdf
          · exact ihnone h k dk (by omega) hk

theorem searchFwdTL_all_finds (cl : List chunk_t) (t : c_token_t) (L : Int)
    (i j : Nat) (d : chunk_t) (hj : cl[j]? = some d) (hij : i < j)
    (hexp : is_expected_type_and_level (some d) t L = true)
    (hmid : ∀ k dk, i < k → k < j → cl[k]? = some dk →
      is_expected_type_and_level (some dk) t L = false) :
    searchFwdTL cl scope_e.ALL t L cl.length i = some j := by
  have hspec := searchFwdTL_all_spec cl t L cl.length i (by omega)
  cases hres : searchFwdTL cl scope_e.ALL t L cl.length i with
  | none =>
    exfalso
    have := hspec.2 hres j d hij hj
    rw [hexp] at this
    cases this
  | some m =>
    obtain ⟨him, e, he, hexpe, hfirst⟩ := hspec.1 m hres
    rcases lt_trichotomy m j with hlt | heq | hgt
    · exfalso
      have := hmid m e him hlt he
      rw [hexpe] at this
      cases this
    · rw [heq]
    · exfalso
      have := hfirst j d hij hgt hj
      rw [hexp] at this
      cases this

theorem searchRevTL_all_finds (cl : List chunk_t) (t : c_token_t) (L : Int)
    (i j : Nat) (d : chunk_t) (hlen : i < cl.length) (hj : cl[j]? = some d)
    (hji : j < i)
    (hexp : is_expected_type_and_level (some d) t L = true)
    (hmid : ∀ k dk, j < k → k < i → cl[k]? = some dk →
      is_expected_type_and_level (some dk) t L = false) :
    searchRevTL cl scope_e.ALL t L (i + 1) i = some j := by
  have hspec := searchRevTL_all_spec cl t L (i + 1) i (by omega) hlen
  cases hres : searchRevTL cl scope_e.ALL t L (i + 1) i with
  | none =>
    exfalso
    have := hspec.2 hres j d hji hj
    rw [hexp] at this
    cases this
  | some m =>
    obtain ⟨hmi, e, he, hexpe, hfirst⟩ := hspec.1 m hres
    rcases lt_trichotomy m j with hlt | heq | hgt
    · exfalso
      have := hfirst j d hlt hji hj
      rw [hexp] at this
      cases this
    · rw [heq]
    · exfalso
      have := hmid m e hgt hmi he
      rw [hexpe] at this
      cases this

theorem open_bracket_succ_close (t : c_token_t)
    (h : open_bracket_kind t = true) : close_bracket_kind (t + 1) = true := by
  simp only [open_bracket_kind, Bool.or_eq_true, beq_iff_eq] at h
  rcases h with ((((((h | h) | h) | h) | h) | h) | h) | h <;> subst h <;> decide

theorem open_bracket_not_close (t : c_token_t)
    (h : open_bracket_kind t = true) : close_bracket_kind t = false := by
  simp only [open_bracket_kind, Bool.or_eq_true, beq_iff_eq] at h
  rcases h with ((((((h | h) | h) | h) | h) | h) | h) | h <;> subst h <;> decide

theorem ncnnlFwd_some_clean (cl : List chunk_t) (s : scope_e) :
    ∀ fuel i j, ncnnlFwd cl s fuel i = some j →
      chunk_is_comment_or_newline (chunkAt cl (some j)) = false := by
  intro fuel
  induction fuel with
  | zero =>
    intro i j h
    simp [ncnnlFwd] at h
  | succ fuel ih =>
    intro i j h
    by_cases hcn : chunk_is_comment_or_newline (chunkAt cl (some i)) = true
    · rw [ncnnlFwd, if_pos hcn] at h
      cases hn : chunk_get_next cl (some i) s with
      | none => rw [hn] at h; cases h
      | some m =>
        rw [hn] at h
        exact ih m j h
    · have hcn' : chunk_is_comment_or_newline (chunkAt cl (some i)) = false := by
        cases hb : chunk_is_comment_or_newline (chunkAt cl (some i)) with
        | false => rfl
        | true => exact absurd hb hcn
      rw [ncnnlFwd, if_neg hcn] at h
      cases h
      exact hcn'

theorem chunk_iter_next_none (cl : List chunk_t) (s : scope_e) :
    ∀ n, chunk_iter_next cl s n none = none := by
  intro n
  induction n with
  | zero => rfl
  | succ n ih =>
    show chunk_iter_next cl s n (chunk_get_next cl none s) = none
    exact ih

theorem chunk_get_next_preproc_flagged (cl : List chunk_t) (i : Nat)
    (c : chunk_t) (hi : cl[i]? = some c) (hc : c.flags.in_preproc = true)
    (j : Nat) (h : chunk_get_next cl (some i) scope_e.PREPROC = some j) :
    ∃ d, cl[j]? = some d ∧ d.flags.in_preproc = true := by
  cases hn : cl[i + 1]? with
  | none => exfalso; simp [chunk_get_next, hi, hn] at h
  | some n =>
    simp only [chunk_get_next, hi, hn] at h
    rw [hc] at h
    simp only [if_pos rfl] at h
    cases hnp : n.flags.in_preproc with
    | true =>
      rw [hnp] at h
      simp only [if_pos rfl] at h
      cases h
      exact ⟨n, hn, hnp⟩
    | false =>
      rw [hnp] at h
      simp at h

theorem chunk_get_next_preproc_boundary (cl : List chunk_t) (i : Nat)
    (c n : chunk_t) (hi : cl[i]? = some c) (hc : c.flags.in_preproc = true)
    (hn : cl[i + 1]? = some n) (hnp : n.flags.in_preproc = false) :
    chunk_get_next cl (some i) scope_e.PREPROC = none := by
  simp [chunk_get_next, hi, hn, hc, hnp]

theorem strncmpZero_take_iff :
    ∀ (pat a : List Char), strncmpZero a pat pat.length = true ↔
      a.take pat.length = pat := by
  intro pat
  induction pat with
  | nil =>
    intro a
    simp [strncmpZero]
  | cons p ps ih =>
    intro a
    cases a with
    | nil => simp [strncmpZero, List.length_cons]
    | cons x xs =>
      simp only [List.length_cons, strncmpZero, Bool.and_eq_true, beq_iff_eq,
        List.take_succ_cons, List.cons.injEq]
      rw [ih xs]

/-! ### Concrete example data used by witnesses and counterexamples -/

/-- An opening paren chunk at level 0. -/
def exOpen : chunk_t := ⟨CT_PAREN_OPEN, 0, ⟨false, false⟩, ['(']⟩

/-- A word chunk at level 1. -/
def exWordL1 : chunk_t := ⟨CT_WORD, 1, ⟨false, false⟩, ['b']⟩

/-- A closing paren chunk at level 0. -/
def exClose : chunk_t := ⟨CT_PAREN_CLOSE, 0, ⟨false, false⟩, [')']⟩

/-- The three-chunk scenario `( b )` of the spec (§8). -/
def exList : List chunk_t := [exOpen, exWordL1, exClose]

/-- A plain word chunk at level 0. -/
def exWord : chunk_t := ⟨CT_WORD, 0, ⟨false, false⟩, ['a']⟩

/-- A newline chunk at level 0. -/
def exNewline : chunk_t := ⟨CT_NEWLINE, 0, ⟨false, false⟩, []⟩

/-- Two preprocessor-flagged chunks followed by an unflagged one. -/
def exPpList : List chunk_t :=
  [⟨CT_WORD, 0, ⟨true, false⟩, ['x']⟩,
   ⟨CT_NEWLINE, 0, ⟨true, false⟩, []⟩,
   ⟨CT_WORD, 0, ⟨false, false⟩, ['y']⟩]

/-! ### Claims -/

/-- Claim C4: every classification predicate of `chunk_list.h` returns
`false` when applied to an absent chunk (`nullptr`), for all values of
its other arguments; absence is never propagated or treated as an
error. -/
theorem classification_predicates_false_on_absent :
    (∀ t, chunk_is_token none t = false) ∧
    (∀ t, chunk_is_not_token none t = false) ∧
    (chunk_is_comment none = false) ∧
    (chunk_is_single_line_comment none = false) ∧
    (chunk_is_newline none = false) ∧
    (chunk_is_semicolon none = false) ∧
    (chunk_is_blank none = false) ∧
    (chunk_is_colon none = false) ∧
    (chunk_is_comment_or_newline none = false) ∧
    (chunk_is_comment_or_newline_or_ignored none = false) ∧
    (chunk_is_balanced_square none = false) ∧
    (chunk_is_preproc none = false) ∧
    (chunk_is_comment_or_newline_in_preproc none = false) ∧
    (chunk_is_comment_newline_or_preproc none = false) ∧
    (chunk_is_comment_newline_or_blank none = false) ∧
    (chunk_is_Doxygen_comment none = false) ∧
    (chunk_is_type none = false) ∧
    (∀ s l, chunk_is_str none s l = false) ∧
    (∀ s l, chunk_is_str_case none s l = false) ∧
    (∀ f, chunk_is_word f none = false) ∧
    (chunk_is_star none = false) ∧
    (∀ lang, chunk_is_nullable lang none = false) ∧
    (∀ cl, chunk_is_addr cl none = false) ∧
    (∀ lang, chunk_is_msref lang none = false) ∧
    (∀ lang cl, chunk_is_ptr_operator lang cl none = false) ∧
    (∀ lang cl, chunk_is_pointer_or_reference lang cl none = false) ∧
    (∀ lang, chunk_is_cpp_inheritance_access_specifier lang none = false) ∧
    (chunk_is_closing_brace none = false) ∧
    (chunk_is_opening_brace none = false) ∧
    (chunk_is_vbrace none = false) ∧
    (chunk_is_paren_open none = false) ∧
    (chunk_is_paren_close none = false) ∧
    (∀ lang cl, chunk_is_forin lang cl none = false) :=
  ⟨fun _ => rfl, fun _ => rfl, rfl, rfl, rfl, rfl, rfl, rfl, rfl, rfl, rfl,
   rfl, rfl, rfl, rfl, rfl, rfl, fun _ _ => rfl, fun _ _ => rfl,
   fun _ => rfl, rfl,
   fun lang => by simp [chunk_is_nullable],
   fun _ => rfl,
   fun lang => by simp [chunk_is_msref],
   fun lang cl => by
     simp [chunk_is_ptr_operator, chunk_is_star, chunk_is_addr,
       chunk_is_msref, chunk_is_nullable, chunkAt],
   fun lang cl => by
     simp [chunk_is_pointer_or_reference, chunk_is_ptr_operator,
       chunk_is_star, chunk_is_addr, chunk_is_msref, chunk_is_nullable,
       chunkAt, chunk_is_token],
   fun lang => by simp [chunk_is_cpp_inheritance_access_specifier],
   rfl, rfl, rfl, rfl, rfl,
   fun lang cl => by simp [chunk_is_forin, chunk_is_token, chunkAt]⟩

/-- Claim C8: `chunk_is_Doxygen_comment(pc)` returns true exactly when
`pc` is present, is a comment (line, multiline or C++-style), its text
is at least three characters long, and the third character of its text
is `/`, `!` or `@`; it returns false for absent chunks, non-comments,
and comments with text shorter than three characters. -/
theorem doxygen_comment_characterization (pc : Option chunk_t) :
    chunk_is_Doxygen_comment pc = true ↔
      ∃ c, pc = some c ∧
        (c.type = CT_COMMENT ∨ c.type = CT_COMMENT_MULTI ∨
         c.type = CT_COMMENT_CPP) ∧
        3 ≤ c.str.length ∧
        (c.str[2]? = some '/' ∨ c.str[2]? = some '!' ∨
         c.str[2]? = some '@') := by
  cases pc with
  | none => simp [chunk_is_Doxygen_comment]
  | some c =>
    simp only [chunk_is_Doxygen_comment, chunk_is_comment, chunk_is_token,
      Option.some.injEq]
    constructor
    · intro h
      have hsplit : (c.type == CT_COMMENT || c.type == CT_COMMENT_MULTI ||
            c.type == CT_COMMENT_CPP) = true ∧
          ¬(c.str.length < 3) ∧
          (c.str[2]? == some '/' || c.str[2]? == some '!' ||
            c.str[2]? == some '@') = true := by
        by_cases h1 : (c.type == CT_COMMENT || c.type == CT_COMMENT_MULTI ||
            c.type == CT_COMMENT_CPP) = true
        · by_cases h2 : c.str.length < 3
          · exfalso
            simp [h1, h2] at h
          · exact ⟨h1, h2, by simpa [h1, h2] using h⟩
        · exfalso
          have h1' : (c.type == CT_COMMENT || c.type == CT_COMMENT_MULTI ||
              c.type == CT_COMMENT_CPP) = false := by
            cases hb : (c.type == CT_COMMENT || c.type == CT_COMMENT_MULTI ||
                c.type == CT_COMMENT_CPP) with
            | false => rfl
            | true => exact absurd hb h1
          simp [h1'] at h
      obtain ⟨h1, h2, h3⟩ := hsplit
      simp only [Bool.or_eq_true, beq_iff_eq] at h1 h3
      refine ⟨c, rfl, ?_, by omega, ?_⟩
      · rcases h1 with (h | h) | h
        · exact Or.inl h
        · exact Or.inr (Or.inl h)
        · exact Or.inr (Or.inr h)
      · rcases h3 with (h | h) | h
        · exact Or.inl h
        · exact Or.inr (Or.inl h)
        · exact Or.inr (Or.inr h)
    · rintro ⟨c', hc', hty, hlen, hch⟩
      cases hc'
      have h1 : (c.type == CT_COMMENT || c.type == CT_COMMENT_MULTI ||
          c.type == CT_COMMENT_CPP) = true := by
        rcases hty with h | h | h <;> simp [h]
      have h3 : (c.str[2]? == some '/' || c.str[2]? == some '!' ||
          c.str[2]? == some '@') = true := by
        rcases hch with h | h | h <;> simp [h]
      simp only [h1, Bool.not_true, Bool.false_eq_true, if_false]
      rw [if_neg (by omega)]
      exact h3

/-- Claim C9: `chunk_same_preproc` returns true whenever either argument
is absent; consequently `chunk_safe_to_del_nl` returns true for a
newline at the head or tail of the list (an absent neighbour), provided
the chunk preceding it is not a C++-style comment. -/
theorem same_preproc_absent_and_boundary_newline :
    (∀ pc2, chunk_same_preproc none pc2 = true) ∧
    (∀ pc1, chunk_same_preproc pc1 none = true) ∧
    (∀ cl : List chunk_t, chunk_safe_to_del_nl cl (some 0) = true) ∧
    (∀ (cl : List chunk_t) (i : Nat) (c : chunk_t), cl[i]? = some c →
       i + 1 = cl.length →
       chunk_is_token (chunkAt cl (chunk_get_prev cl (some i) scope_e.ALL))
           CT_COMMENT_CPP = false →
       chunk_safe_to_del_nl cl (some i) = true) := by
  refine ⟨fun pc2 => by cases pc2 <;> rfl, fun pc1 => by cases pc1 <;> rfl,
    ?_, ?_⟩
  · intro cl
    have hprev : chunk_get_prev cl (some 0) scope_e.ALL = none :=
      chunk_get_prev_all_zero cl
    simp [chunk_safe_to_del_nl, hprev, chunkAt, chunk_is_token,
      chunk_same_preproc]
  · intro cl i c hi hlen hcpp
    have hnone : cl[i + 1]? = none := List.getElem?_eq_none (by omega)
    have hnext : chunk_get_next cl (some i) scope_e.ALL = none :=
      chunk_get_next_all_none_of_getElem cl i hnone
    rw [chunk_safe_to_del_nl, if_neg (by simp [hcpp]), hnext]
    cases hX : chunkAt cl (chunk_get_prev cl (some i) scope_e.ALL) <;>
      simp [chunk_same_preproc, chunkAt]

theorem same_preproc_absent_and_boundary_newline_witness :
    chunk_safe_to_del_nl [exWord, exNewline] (some 1) = true :=
  same_preproc_absent_and_boundary_newline.2.2.2 [exWord, exNewline] 1
    exNewline rfl rfl (by decide)

/-- Claim C10: for a chunk whose kind is `CT_OPERATOR_VAL`,
`chunk_is_star`, `chunk_is_addr` and `chunk_is_msref` all return false
even when the text is `*`, `&` or `^`; `chunk_is_nullable` has no such
exclusion. -/
theorem operator_val_not_ptr_operator :
    (∀ pc : chunk_t, pc.type = CT_OPERATOR_VAL →
       chunk_is_star (some pc) = false) ∧
    (∀ (cl : List chunk_t) (i : Nat) (pc : chunk_t), cl[i]? = some pc →
       pc.type = CT_OPERATOR_VAL → chunk_is_addr cl (some i) = false) ∧
    (∀ (lang : lang_flags_t) (pc : chunk_t), pc.type = CT_OPERATOR_VAL →
       chunk_is_msref lang (some pc) = false) ∧
    (chunk_is_nullable ⟨false, true, false⟩
       (some ⟨CT_OPERATOR_VAL, 0, ⟨false, false⟩, ['?']⟩) = true) := by
  refine ⟨?_, ?_, ?_, by decide⟩
  · intro pc h
    simp [chunk_is_star, h]
  · intro cl i pc hi h
    simp [chunk_is_addr, chunkAt, hi, h]
  · intro lang pc h
    simp [chunk_is_msref, h]

theorem operator_val_not_ptr_operator_witness :
    chunk_is_star (some ⟨CT_OPERATOR_VAL, 0, ⟨false, false⟩, ['*']⟩) = false ∧
    chunk_is_addr [⟨CT_OPERATOR_VAL, 0, ⟨false, false⟩, ['&']⟩] (some 0) =
      false ∧
    chunk_is_msref ⟨true, false, false⟩
      (some ⟨CT_OPERATOR_VAL, 0, ⟨false, false⟩, ['^']⟩) = false :=
  ⟨operator_val_not_ptr_operator.1 _ rfl,
   operator_val_not_ptr_operator.2.1 _ 0 _ rfl rfl,
   operator_val_not_ptr_operator.2.2.1 _ _ rfl⟩

/-- Claim C7 counterexample: the text comparison of
`chunk_is_cpp_inheritance_access_specifier` is not an exact match — the
`strncmp` against each word's own length accepts any text that merely
starts with one of the three words.  A `CT_QUALIFIER` chunk with text
"publicize" is accepted although its text is none of "private",
"protected", "public". -/
theorem inheritance_access_specifier_counterexample :
    chunk_is_cpp_inheritance_access_specifier ⟨true, false, false⟩
        (some ⟨CT_QUALIFIER, 0, ⟨false, false⟩,
          ['p', 'u', 'b', 'l', 'i', 'c', 'i', 'z', 'e']⟩) = true ∧
    ¬(['p', 'u', 'b', 'l', 'i', 'c', 'i', 'z', 'e'] = private_chars ∨
      ['p', 'u', 'b', 'l', 'i', 'c', 'i', 'z', 'e'] = protected_chars ∨
      ['p', 'u', 'b', 'l', 'i', 'c', 'i', 'z', 'e'] = public_chars) := by
  decide

/-- Claim C7 (amended): `chunk_is_cpp_inheritance_access_specifier(pc)`
returns true exactly when the C++ language is active, `pc` is present,
`pc`'s kind is access-specifier or qualifier, and `pc`'s text has one
of "private", "protected", "public" as a prefix (the `strncmp` against
each word's own length is a prefix test, not an exact match); in
particular it returns false whenever the C++ language is not active. -/
theorem inheritance_access_specifier_characterization
    (lang : lang_flags_t) (pc : Option chunk_t) :
    chunk_is_cpp_inheritance_access_specifier lang pc = true ↔
      lang.cpp = true ∧ ∃ c, pc = some c ∧
        (c.type = CT_ACCESS ∨ c.type = CT_QUALIFIER) ∧
        (c.str.take 7 = private_chars ∨ c.str.take 9 = protected_chars ∨
         c.str.take 6 = public_chars) := by
  cases pc with
  | none => simp [chunk_is_cpp_inheritance_access_specifier]
  | some c =>
    have hpriv := strncmpZero_take_iff private_chars c.str
    have hprot := strncmpZero_take_iff protected_chars c.str
    have hpub := strncmpZero_take_iff public_chars c.str
    have l7 : private_chars.length = 7 := rfl
    have l9 : protected_chars.length = 9 := rfl
    have l6 : public_chars.length = 6 := rfl
    rw [l7] at hpriv
    rw [l9] at hprot
    rw [l6] at hpub
    simp only [chunk_is_cpp_inheritance_access_specifier, Bool.and_eq_true,
      Bool.or_eq_true, beq_iff_eq, Option.some.injEq]
    rw [hpriv, hprot, hpub]
    constructor
    · rintro ⟨hcpp, hty, hstr⟩
      exact ⟨hcpp, c, rfl, hty, by tauto⟩
    · rintro ⟨hcpp, c', hc', hty, hstr⟩
      cases hc'
      exact ⟨hcpp, hty, by tauto⟩

theorem inheritance_access_specifier_characterization_witness :
    chunk_is_cpp_inheritance_access_specifier ⟨true, false, false⟩
        (some ⟨CT_ACCESS, 0, ⟨false, false⟩,
          ['p', 'u', 'b', 'l', 'i', 'c']⟩) = true :=
  (inheritance_access_specifier_characterization ⟨true, false, false⟩
      (some ⟨CT_ACCESS, 0, ⟨false, false⟩,
        ['p', 'u', 'b', 'l', 'i', 'c']⟩)).2
    ⟨rfl, _, rfl, Or.inl rfl, by decide⟩

/-- Claim C5: with an absent `ref`, `chunk_add_before` inserts the
duplicate of `pc_in` at the head of the list and `chunk_add_after`
inserts it at the tail; in both cases the inserted chunk is returned and
the rest of the list is preserved in order (the doubly-linked
consistency invariant is intrinsic to the list representation). -/
theorem add_before_after_absent_ref (cl : List chunk_t) (pc : chunk_t)
    (hne : cl ≠ []) :
    ((chunk_add_before cl (some pc) none).2 = some 0 ∧
     chunk_get_head (chunk_add_before cl (some pc) none).1 = some 0 ∧
     chunkAt (chunk_add_before cl (some pc) none).1 (some 0) = some pc ∧
     (chunk_add_before cl (some pc) none).1 = pc :: cl) ∧
    ((chunk_add_after cl (some pc) none).2 = some cl.length ∧
     chunk_get_tail (chunk_add_after cl (some pc) none).1 = some cl.length ∧
     chunkAt (chunk_add_after cl (some pc) none).1 (some cl.length) =
       some pc ∧
     (chunk_add_after cl (some pc) none).1 = cl ++ [pc]) := by
  constructor
  · refine ⟨rfl, ?_, ?_, rfl⟩
    · simp [chunk_add_before, chunk_dup, chunk_get_head]
    · simp [chunk_add_before, chunk_dup, chunkAt]
  · refine ⟨rfl, ?_, ?_, rfl⟩
    · simp [chunk_add_after, chunk_dup, chunk_get_tail]
    · show (cl ++ [pc])[cl.length]? = some pc
      exact List.getElem?_concat_length cl pc

theorem add_before_after_absent_ref_witness :
    (chunk_add_before [exWord] (some exOpen) none).1 = exOpen :: [exWord] ∧
    (chunk_add_after [exWord] (some exOpen) none).1 = [exWord] ++ [exOpen] :=
  ⟨(add_before_after_absent_ref [exWord] exOpen (by decide)).1.2.2.2,
   (add_before_after_absent_ref [exWord] exOpen (by decide)).2.2.2.2⟩

/-- Claim C6: the "skip comments and newlines" filtered traversal
(`chunk_get_next_ncnnl`, modelled from the spec as "continue while skip,
stop — returning that chunk — when keep") is the identity on a chunk
that is neither a comment nor a newline, and hence its repeated
application is idempotent. -/
theorem ncnnl_identity_on_non_comment_newline :
    (∀ (cl : List chunk_t) (s : scope_e) (i : Nat),
       chunk_is_comment_or_newline (chunkAt cl (some i)) = false →
       chunk_get_next_ncnnl cl (some i) s = some i) ∧
    (∀ (cl : List chunk_t) (s : scope_e) (cur : Option Nat),
       chunk_get_next_ncnnl cl (chunk_get_next_ncnnl cl cur s) s =
         chunk_get_next_ncnnl cl cur s) := by
  have hid : ∀ (cl : List chunk_t) (s : scope_e) (i : Nat),
      chunk_is_comment_or_newline (chunkAt cl (some i)) = false →
      chunk_get_next_ncnnl cl (some i) s = some i := by
    intro cl s i h
    show ncnnlFwd cl s (cl.length + 1) i = some i
    rw [ncnnlFwd, if_neg (by simp [h])]
  refine ⟨hid, ?_⟩
  intro cl s cur
  cases cur with
  | none => rfl
  | some i =>
    cases hr : chunk_get_next_ncnnl cl (some i) s with
    | none => rfl
    | some j =>
      have hclean := ncnnlFwd_some_clean cl s (cl.length + 1) i j hr
      exact hid cl s j hclean

theorem ncnnl_identity_on_non_comment_newline_witness :
    chunk_get_next_ncnnl [exWord] (some 0) scope_e.ALL = some 0 :=
  ncnnl_identity_on_non_comment_newline.1 [exWord] scope_e.ALL 0 (by decide)

/-- Claim C3: starting from a chunk whose `PCF_IN_PREPROC` flag is set,
`chunk_get_next(cur, PREPROC)` never returns a chunk whose flag differs:
each step, and hence every chunk reachable by repeated application,
carries the flag, and at the end of the directive (an unflagged literal
successor) the traversal returns absence instead of a chunk outside the
region. -/
theorem preproc_scope_containment :
    (∀ (cl : List chunk_t) (i : Nat) (c : chunk_t), cl[i]? = some c →
       c.flags.in_preproc = true →
       ∀ j, chunk_get_next cl (some i) scope_e.PREPROC = some j →
         ∃ d, cl[j]? = some d ∧ d.flags.in_preproc = true) ∧
    (∀ (cl : List chunk_t) (n i : Nat) (c : chunk_t), cl[i]? = some c →
       c.flags.in_preproc = true →
       ∀ j, chunk_iter_next cl scope_e.PREPROC n (some i) = some j →
         ∃ d, cl[j]? = some d ∧ d.flags.in_preproc = true) ∧
    (∀ (cl : List chunk_t) (i : Nat) (c n : chunk_t), cl[i]? = some c →
       c.flags.in_preproc = true → cl[i + 1]? = some n →
       n.flags.in_preproc = false →
       chunk_get_next cl (some i) scope_e.PREPROC = none) := by
  refine ⟨fun cl i c hi hc j h =>
      chunk_get_next_preproc_flagged cl i c hi hc j h, ?_,
    fun cl i c n hi hc hn hnp =>
      chunk_get_next_preproc_boundary cl i c n hi hc hn hnp⟩
  intro cl n
  induction n with
  | zero =>
    intro i c hi hc j h
    have hj : some i = some j := h
    cases hj
    exact ⟨c, hi, hc⟩
  | succ n ih =>
    intro i c hi hc j h
    have hstep : chunk_iter_next cl scope_e.PREPROC (n + 1) (some i) =
        chunk_iter_next cl scope_e.PREPROC n
          (chunk_get_next cl (some i) scope_e.PREPROC) := rfl
    rw [hstep] at h
    cases hm : chunk_get_next cl (some i) scope_e.PREPROC with
    | none =>
      rw [hm, chunk_iter_next_none] at h
      cases h
    | some m =>
      rw [hm] at h
      obtain ⟨d, hd, hdp⟩ := chunk_get_next_preproc_flagged cl i c hi hc m hm
      exact ih m d hd hdp j h

theorem preproc_scope_containment_witness :
    (∃ d, exPpList[1]? = some d ∧ d.flags.in_preproc = true) ∧
    chunk_get_next exPpList (some 1) scope_e.PREPROC = none :=
  ⟨preproc_scope_containment.2.1 exPpList 1 0 ⟨CT_WORD, 0, ⟨true, false⟩, ['x']⟩
      rfl rfl 1 (by decide),
   preproc_scope_containment.2.2 exPpList 1 ⟨CT_NEWLINE, 0, ⟨true, false⟩, []⟩
      ⟨CT_WORD, 0, ⟨false, false⟩, ['y']⟩ rfl rfl rfl rfl⟩

/-- Claim C1: on an opening bracket-family token, `chunk_skip_to_match`
returns the next chunk whose kind is the unique matching closing kind
(`cur->type + 1`) and whose level equals `cur`'s level, or absence if no
such chunk exists; on anything else (absence included) it returns `cur`
unchanged.  Symmetrically, `chunk_skip_to_match_rev` on a closing
bracket-family token returns the previous chunk of the matching opening
kind (`cur->type - 1`) at the same level, and is the identity
otherwise. -/
theorem skip_to_match_spec :
    (∀ (cl : List chunk_t) (i : Nat) (c : chunk_t), cl[i]? = some c →
       open_bracket_kind c.type = true →
       ((∀ j, chunk_skip_to_match cl (some i) scope_e.ALL = some j →
           i < j ∧ ∃ d, cl[j]? = some d ∧ d.type = c.type + 1 ∧
             d.level = c.level ∧
             ∀ k dk, i < k → k < j → cl[k]? = some dk →
               ¬(dk.type = c.type + 1 ∧ dk.level = c.level)) ∧
        (chunk_skip_to_match cl (some i) scope_e.ALL = none →
           ∀ k dk, i < k → cl[k]? = some dk →
             ¬(dk.type = c.type + 1 ∧ dk.level = c.level)))) ∧
    (∀ (cl : List chunk_t) (i : Nat) (c : chunk_t) (s : scope_e),
       cl[i]? = some c → open_bracket_kind c.type = false →
       chunk_skip_to_match cl (some i) s = some i) ∧
    (∀ (cl : List chunk_t) (s : scope_e),
       chunk_skip_to_match cl none s = none) ∧
    (∀ (cl : List chunk_t) (i : Nat) (c : chunk_t), cl[i]? = some c →
       close_bracket_kind c.type = true →
       ((∀ j, chunk_skip_to_match_rev cl (some i) scope_e.ALL = some j →
           j < i ∧ ∃ d, cl[j]? = some d ∧ d.type = c.type - 1 ∧
             d.level = c.level ∧
             ∀ k dk, j < k → k < i → cl[k]? = some dk →
               ¬(dk.type = c.type - 1 ∧ dk.level = c.level)) ∧
        (chunk_skip_to_match_rev cl (some i) scope_e.ALL = none →
           ∀ k dk, k < i → cl[k]? = some dk →
             ¬(dk.type = c.type - 1 ∧ dk.level = c.level)))) ∧
    (∀ (cl : List chunk_t) (i : Nat) (c : chunk_t) (s : scope_e),
       cl[i]? = some c → close_bracket_kind c.type = false →
       chunk_skip_to_match_rev cl (some i) s = some i) ∧
    (∀ (cl : List chunk_t) (s : scope_e),
       chunk_skip_to_match_rev cl none s = none) := by
  refine ⟨?_, ?_, fun cl s => rfl, ?_, ?_, fun cl s => rfl⟩
  · intro cl i c hi hopen
    have hunfold : chunk_skip_to_match cl (some i) scope_e.ALL =
        searchFwdTL cl scope_e.ALL (c.type + 1) (c.level : Int)
          cl.length i := by
      simp [chunk_skip_to_match, chunkAt, hi, hopen, chunk_get_next_type]
    obtain ⟨hsome, hnone⟩ :=
      searchFwdTL_all_spec cl (c.type + 1) (c.level : Int) cl.length i
        (by omega)
    constructor
    · intro j hj
      rw [hunfold] at hj
      obtain ⟨hij, d, hd, hexp, hfirst⟩ := hsome j hj
      obtain ⟨hty, hlev⟩ := (expTL_nat_iff d (c.type + 1) c.level).1 hexp
      refine ⟨hij, d, hd, hty, hlev, ?_⟩
      intro k dk h1 h2 hk
      exact (expTL_nat_false_iff dk (c.type + 1) c.level).1
        (hfirst k dk h1 h2 hk)
    · intro hn k dk h1 hk
      rw [hunfold] at hn
      exact (expTL_nat_false_iff dk (c.type + 1) c.level).1
        (hnone hn k dk h1 hk)
  · intro cl i c s hi hopen
    simp [chunk_skip_to_match, chunkAt, hi, hopen]
  · intro cl i c hi hclose
    have hlen : i < cl.length := (List.getElem?_eq_some.1 hi).1
    have hunfold : chunk_skip_to_match_rev cl (some i) scope_e.ALL =
        searchRevTL cl scope_e.ALL (c.type - 1) (c.level : Int)
          (i + 1) i := by
      simp [chunk_skip_to_match_rev, chunkAt, hi, hclose,
        chunk_get_prev_type]
    obtain ⟨hsome, hnone⟩ :=
      searchRevTL_all_spec cl (c.type - 1) (c.level : Int) (i + 1) i
        (by omega) hlen
    constructor
    · intro j hj
      rw [hunfold] at hj
      obtain ⟨hji, d, hd, hexp, hfirst⟩ := hsome j hj
      obtain ⟨hty, hlev⟩ := (expTL_nat_iff d (c.type - 1) c.level).1 hexp
      refine ⟨hji, d, hd, hty, hlev, ?_⟩
      intro k dk h1 h2 hk
      exact (expTL_nat_false_iff dk (c.type - 1) c.level).1
        (hfirst k dk h1 h2 hk)
    · intro hn k dk h1 hk
      rw [hunfold] at hn
      exact (expTL_nat_false_iff dk (c.type - 1) c.level).1
        (hnone hn k dk h1 hk)
  · intro cl i c s hi hclose
    simp [chunk_skip_to_match_rev, chunkAt, hi, hclose]

theorem skip_to_match_spec_witness :
    0 < 2 ∧ ∃ d, exList[2]? = some d ∧ d.type = exOpen.type + 1 ∧
      d.level = exOpen.level ∧
      ∀ k dk, 0 < k → k < 2 → exList[k]? = some dk →
        ¬(dk.type = exOpen.type + 1 ∧ dk.level = exOpen.level) :=
  (skip_to_match_spec.1 exList 0 exOpen rfl (by decide)).1 2 (by decide)

/-- Claim C2 counterexample: the round trip
`skip_to_match(skip_to_match_reverse(x)) == x` fails when `x` is the
opening token of a well-formed bracket pair: on the spec's own `( b )`
scenario, `chunk_skip_to_match_rev` is the identity on the opener (index
0) and `chunk_skip_to_match` then moves to the closer (index 2), so the
composite returns `some 2`, not `some 0`. -/
theorem round_trip_counterexample :
    chunk_skip_to_match exList
        (chunk_skip_to_match_rev exList (some 0) scope_e.ALL)
        scope_e.ALL = some 2 ∧
    (some 2 : Option Nat) ≠ some 0 := by
  decide

/-- Claim C2 (amended): for `x` the CLOSING token of a well-formed
bracket pair at a given level — opener at `i`, closer at `j`, matching
kinds, equal levels, and no chunk of the pair's opening or closing kind
at that level strictly between them — the round trip holds:
`chunk_skip_to_match (chunk_skip_to_match_rev x) = x`.  (For `x` the
opening token the composite instead returns the pair's closer, as the
counterexample shows.) -/
theorem round_trip_closing (cl : List chunk_t) (i j : Nat) (c d : chunk_t)
    (hi : cl[i]? = some c) (hj : cl[j]? = some d)
    (hopen : open_bracket_kind c.type = true)
    (hd : d.type = c.type + 1) (hlev : d.level = c.level) (hij : i < j)
    (hmid : ∀ k dk, i < k → k < j → cl[k]? = some dk →
      ¬((dk.type = c.type ∨ dk.type = c.type + 1) ∧ dk.level = c.level)) :
    chunk_skip_to_match cl (chunk_skip_to_match_rev cl (some j) scope_e.ALL)
      scope_e.ALL = some j := by
  have hjlen : j < cl.length := (List.getElem?_eq_some.1 hj).1
  have hclose : close_bracket_kind d.type = true := by
    rw [hd]
    exact open_bracket_succ_close c.type hopen
  have hrevsearch : searchRevTL cl scope_e.ALL (d.type - 1) (d.level : Int)
      (j + 1) j = some i := by
    apply searchRevTL_all_finds cl (d.type - 1) (d.level : Int) j i c hjlen
      hi hij
    · rw [hd, hlev, Nat.add_sub_cancel]
      exact (expTL_nat_iff c c.type c.level).2 ⟨rfl, rfl⟩
    · intro k dk h1 h2 hk
      rw [hd, hlev, Nat.add_sub_cancel]
      exact (expTL_nat_false_iff dk c.type c.level).2
        (fun hcon => hmid k dk h1 h2 hk ⟨Or.inl hcon.1, hcon.2⟩)
  have hrev : chunk_skip_to_match_rev cl (some j) scope_e.ALL = some i := by
    have hu : chunk_skip_to_match_rev cl (some j) scope_e.ALL =
        searchRevTL cl scope_e.ALL (d.type - 1) (d.level : Int)
          (j + 1) j := by
      simp [chunk_skip_to_match_rev, chunkAt, hj, hclose,
        chunk_get_prev_type]
    rw [hu, hrevsearch]
  have hfwdsearch : searchFwdTL cl scope_e.ALL (c.type + 1) (c.level : Int)
      cl.length i = some j := by
    apply searchFwdTL_all_finds cl (c.type + 1) (c.level : Int) i j d hj hij
    · exact (expTL_nat_iff d (c.type + 1) c.level).2 ⟨hd, hlev⟩
    · intro k dk h1 h2 hk
      exact (expTL_nat_false_iff dk (c.type + 1) c.level).2
        (fun hcon => hmid k dk h1 h2 hk ⟨Or.inr hcon.1, hcon.2⟩)
  have hfwd : chunk_skip_to_match cl (some i) scope_e.ALL =
      searchFwdTL cl scope_e.ALL (c.type + 1) (c.level : Int)
        cl.length i := by
    simp [chunk_skip_to_match, chunkAt, hi, hopen, chunk_get_next_type]
  rw [hrev, hfwd, hfwdsearch]

theorem round_trip_closing_witness :
    chunk_skip_to_match exList
        (chunk_skip_to_match_rev exList (some 2) scope_e.ALL)
        scope_e.ALL = some 2 :=
  round_trip_closing exList 0 2 exOpen exClose rfl rfl (by decide)
    (by decide) (by decide) (by decide)
    (by
      intro k dk h1 h2 hk
      have hk1 : k = 1 := by omega
      subst hk1
      have hdk : some exWordL1 = some dk := hk
      cases hdk
      decide)
